import Mathlib

/-!
Verification of the StyleScopeTemplate capture-to-presentation pipeline.

The development shallowly embeds the two source files of the repository:
the response parser (formatAnalysisText / renderFormattedContent) and the
screen-level session control flow (takePicture / pickImage / analyzeRoom /
resetAnalysis, plus which buttons each rendered screen exposes).

Strings are modelled as lists of characters (String.data).  JavaScript
regular-expression behaviour is translated operationally:
the split regex of formatAnalysisText scans left to right for the first
position matching two asterisks, one or more digits, a period, a non-empty
colon-free span, a colon, and two asterisks; the capture group is the part
from the first digit through the colon.  Backtracking inside the
digit-class, whitespace-class and negated-colon-class components reduces to
the maximal-munch forms used below, because a shorter munch always places a
character of the same class where the next literal is required.
-/

namespace StyleScope

/-- Char class for the JavaScript regex digit class: the characters 0-9. -/
def isDigitCh (c : Char) : Bool := '0' ≤ c && c ≤ '9'

/-- Char class for JavaScript whitespace (the ASCII part, which covers all
inputs considered here): space, tab, line feed, carriage return, vertical
tab, form feed. -/
def isSpaceCh (c : Char) : Bool :=
  c = ' ' || c = '\t' || c = '\n' || c = '\r' || c = '\x0b' || c = '\x0c'

/-- Test of the heading-marker regex of formatAnalysisText at the current
position: two asterisks, one or more digits, a period, a non-empty
colon-free span, a colon, two asterisks.  On success returns the capture
(digits, period, span, colon) and the text after the closing asterisks. -/
def matchHeadingAt (cs : List Char) : Option (List Char × List Char) :=
  match cs with
  | c1 :: c2 :: r =>
    if c1 = '*' ∧ c2 = '*' then
      if r.takeWhile isDigitCh = [] then none
      else
        match r.dropWhile isDigitCh with
        | d :: r2 =>
          if d = '.' then
            if r2.takeWhile (fun c => !(c == ':')) = [] then none
            else
              match r2.dropWhile (fun c => !(c == ':')) with
              | k :: s1 :: s2 :: r4 =>
                if k = ':' ∧ s1 = '*' ∧ s2 = '*' then
                  some (r.takeWhile isDigitCh ++
                        '.' :: (r2.takeWhile (fun c => !(c == ':')) ++ [':']), r4)
                else none
              | _ => none
          else none
        | [] => none
    else none
  | _ => none

/-- Left-to-right scan for the first heading-marker match, as the
JavaScript regex engine performs it.  Returns (text before the match,
capture, text after the match). -/
def findSplit : List Char → Option (List Char × List Char × List Char)
  | [] => none
  | c :: cs =>
    match matchHeadingAt (c :: cs) with
    | some (cap, rest) => some ([], cap, rest)
    | none =>
      match findSplit cs with
      | some (pre, cap, rest) => some (c :: pre, cap, rest)
      | none => none

theorem length_dropWhile_le (p : Char → Bool) (l : List Char) :
    (l.dropWhile p).length ≤ l.length := by
  induction l with
  | nil => simp [List.dropWhile]
  | cons a l ih =>
    simp only [List.dropWhile]
    split
    · exact Nat.le_trans ih (by simp)
    · simp

theorem matchHeadingAt_length {cs cap rest : List Char}
    (h : matchHeadingAt cs = some (cap, rest)) : rest.length < cs.length := by
  unfold matchHeadingAt at h
  split at h
  case h_1 c1 c2 r =>
    split at h
    · split at h
      · exact absurd h (by simp)
      · split at h
        case h_1 d r2 hdrop =>
          split at h
          · split at h
            · exact absurd h (by simp)
            · split at h
              case h_1 k s1 s2 r4 hdrop2 =>
                split at h
                · have h1 := length_dropWhile_le isDigitCh r
                  have h2 := length_dropWhile_le (fun c => !(c == ':')) r2
                  rw [hdrop] at h1
                  rw [hdrop2] at h2
                  simp only [Option.some.injEq, Prod.mk.injEq] at h
                  have hrest : rest = r4 := h.2.symm
                  subst hrest
                  simp only [List.length_cons] at h1 h2 ⊢
                  omega
                · exact absurd h (by simp)
              case h_2 => exact absurd h (by simp)
          · exact absurd h (by simp)
        case h_2 => exact absurd h (by simp)
    · exact absurd h (by simp)
  case h_2 => exact absurd h (by simp)

theorem matchHeadingAt_cap_ne {cs cap rest : List Char}
    (h : matchHeadingAt cs = some (cap, rest)) : cap ≠ [] := by
  unfold matchHeadingAt at h
  split at h
  case h_1 c1 c2 r =>
    split at h
    · split at h
      · exact absurd h (by simp)
      · split at h
        case h_1 d r2 hdrop =>
          split at h
          · split at h
            · exact absurd h (by simp)
            · split at h
              case h_1 k s1 s2 r4 hdrop2 =>
                split at h
                · simp only [Option.some.injEq, Prod.mk.injEq] at h
                  have hcap : cap = r.takeWhile isDigitCh ++
                      '.' :: (r2.takeWhile (fun c => !(c == ':')) ++ [':']) := h.1.symm
                  subst hcap
                  simp
                · exact absurd h (by simp)
              case h_2 => exact absurd h (by simp)
          · exact absurd h (by simp)
        case h_2 => exact absurd h (by simp)
    · exact absurd h (by simp)
  case h_2 => exact absurd h (by simp)

theorem findSplit_length {cs pre cap rest : List Char}
    (h : findSplit cs = some (pre, cap, rest)) : rest.length < cs.length := by
  induction cs generalizing pre cap rest with
  | nil => simp [findSplit] at h
  | cons c cs ih =>
    unfold findSplit at h
    split at h
    case h_1 cap' rest' hm =>
      simp only [Option.some.injEq, Prod.mk.injEq] at h
      have : rest = rest' := h.2.2.symm
      subst this
      exact matchHeadingAt_length hm
    case h_2 hm =>
      split at h
      case h_1 pre' cap' rest' hf =>
        simp only [Option.some.injEq, Prod.mk.injEq] at h
        have : rest = rest' := h.2.2.symm
        subst this
        exact Nat.lt_trans (ih hf) (by simp)
      case h_2 => exact absurd h (by simp)

theorem findSplit_cap_ne {cs pre cap rest : List Char}
    (h : findSplit cs = some (pre, cap, rest)) : cap ≠ [] := by
  induction cs generalizing pre cap rest with
  | nil => simp [findSplit] at h
  | cons c cs ih =>
    unfold findSplit at h
    split at h
    case h_1 cap' rest' hm =>
      simp only [Option.some.injEq, Prod.mk.injEq] at h
      have : cap = cap' := h.2.1.symm
      subst this
      exact matchHeadingAt_cap_ne hm
    case h_2 hm =>
      split at h
      case h_1 pre' cap' rest' hf =>
        simp only [Option.some.injEq, Prod.mk.injEq] at h
        have : cap = cap' := h.2.1.symm
        subst this
        exact ih hf
      case h_2 => exact absurd h (by simp)

/-- Fuel-indexed form of the split of formatAnalysisText.  With fuel larger
than the text length the fuel never runs out, so the zero-fuel branch is a
formal device only. -/
def splitAllF : Nat → List Char → List (List Char)
  | 0, cs => [cs]
  | fuel + 1, cs =>
    match findSplit cs with
    | none => [cs]
    | some (pre, cap, rest) => pre :: cap :: splitAllF fuel rest

/-- Model of text.split(headingRegex) with its one capture group: the JS
split interleaves the text between matches with the captured labels and
keeps empty pieces. -/
def splitAll (cs : List Char) : List (List Char) := splitAllF (cs.length + 1) cs

theorem splitAllF_fuel : ∀ (f1 f2 : Nat) (cs : List Char),
    cs.length < f1 → cs.length < f2 → splitAllF f1 cs = splitAllF f2 cs := by
  intro f1
  induction f1 with
  | zero => intro f2 cs h1; omega
  | succ f1 ih =>
    intro f2 cs h1 h2
    match f2 with
    | 0 => omega
    | f2 + 1 =>
      simp only [splitAllF]
      split
      · rfl
      case h_2 pre cap rest hf =>
        have hlt := findSplit_length hf
        rw [ih f2 rest (by omega) (by omega)]

theorem splitAll_none {cs : List Char} (h : findSplit cs = none) :
    splitAll cs = [cs] := by
  simp [splitAll, splitAllF, h]

theorem splitAllF_succ_some {fuel : Nat} {cs pre cap rest : List Char}
    (h : findSplit cs = some (pre, cap, rest)) :
    splitAllF (fuel + 1) cs = pre :: cap :: splitAllF fuel rest := by
  simp [splitAllF, h]

theorem splitAll_some {cs pre cap rest : List Char}
    (h : findSplit cs = some (pre, cap, rest)) :
    splitAll cs = pre :: cap :: splitAll rest := by
  have hlt := findSplit_length h
  unfold splitAll
  rw [splitAllF_succ_some h]
  rw [splitAllF_fuel cs.length (rest.length + 1) rest (by omega) (by omega)]

/-- Model of the .filter(Boolean) call: empty strings are removed, anywhere
in the segment list. -/
def filterBoolean (l : List (List Char)) : List (List Char) :=
  l.filter (fun seg => !seg.isEmpty)

/-- Model of heading.replace applied to the anchored digits-period-spaces
regex: when the string begins with one or more digits directly followed by
a period, that prefix and the whitespace after it are removed; otherwise
the string is unchanged. -/
def stripLeadNum (cs : List Char) : List Char :=
  if cs.takeWhile isDigitCh = [] then cs
  else
    match cs.dropWhile isDigitCh with
    | '.' :: r2 => r2.dropWhile isSpaceCh
    | _ => cs

/-- Model of the JavaScript String.prototype.trim call: whitespace removed
from both ends. -/
def trimJS (cs : List Char) : List Char :=
  ((cs.dropWhile isSpaceCh).reverse.dropWhile isSpaceCh).reverse

/-- One labeled section as produced by formatAnalysisText. -/
structure Section where
  heading : List Char
  content : List Char
deriving DecidableEq

/-- One iteration of the for loop of formatAnalysisText: the guard keeps a
pair only when both the heading and the content are non-empty strings
(JavaScript truthiness on strings). -/
def pairStep (heading content : List Char) : List Section :=
  if heading ≠ [] ∧ content ≠ [] then
    [{ heading := stripLeadNum heading, content := trimJS content }]
  else []

/-- Model of the index-stepping loop of formatAnalysisText: segments are
consumed two at a time; a missing second element defaults to the empty
string, as the expression sections[i + 1] with the or-else default does. -/
def pairUp : List (List Char) → List Section
  | [] => []
  | [h] => pairStep h []
  | h :: c :: rest => pairStep h c ++ pairUp rest

/-- Model of formatAnalysisText from the source: split at heading markers,
drop empty segments, pair the remaining segments into sections. -/
def formatAnalysisTextL (cs : List Char) : List Section :=
  pairUp (filterBoolean (splitAll cs))

/-- String-level entry point of the response parser. -/
def formatAnalysisText (s : String) : List Section := formatAnalysisTextL s.data

/-- Model of content.split applied to the line-feed separator: literal
single-character split that keeps empty pieces. -/
def splitLines : List Char → List (List Char)
  | [] => [[]]
  | '\n' :: rest => [] :: splitLines rest
  | c :: rest =>
    match splitLines rest with
    | l :: ls => (c :: l) :: ls
    | [] => [[c]]

/-- One displayed line of a section body: a plain statement or a bulleted
sub-point, as renderFormattedContent distinguishes them. -/
inductive Line where
  | plain (text : List Char)
  | subpoint (text : List Char)
deriving DecidableEq

/-- Model of line.replace applied to the anchored star-and-spaces regex with
the bullet replacement: when the line starts with an asterisk at its very
first character, that asterisk and the whitespace after it become a bullet
glyph and a space; otherwise the line is unchanged (the regex is anchored,
so an indented asterisk does not match). -/
def replaceLeadStar : List Char → List Char
  | '*' :: rest => '•' :: ' ' :: rest.dropWhile isSpaceCh
  | cs => cs

/-- Classification of one kept line by renderFormattedContent: a line whose
trimmed form starts with an asterisk renders as a sub-point with the
anchored replacement applied to the original line; any other line renders
as plain text, unchanged. -/
def renderLine (line : List Char) : Line :=
  if (trimJS line).head? = some '*' then .subpoint (replaceLeadStar line)
  else .plain line

/-- Lines of a content block that survive the blank-line filter of
renderFormattedContent (lines whose trimmed form is non-empty). -/
def nonBlankLines (cs : List Char) : List (List Char) :=
  (splitLines cs).filter (fun l => !(trimJS l).isEmpty)

/-- Model of renderFormattedContent from the source: split the block into
lines, drop blank lines, classify each remaining line. -/
def renderFormattedContentL (cs : List Char) : List Line :=
  (nonBlankLines cs).map renderLine

/-- String-level entry point of the per-line formatter. -/
def renderFormattedContent (s : String) : List Line := renderFormattedContentL s.data

/-- Text before the first heading marker of a text, when a marker exists;
conventionally empty otherwise (a markerless text produces no sections
either way). -/
def preText (cs : List Char) : List Char :=
  match findSplit cs with
  | none => []
  | some (pre, _, _) => pre

/-- Content block attached to the most recent heading: the text before the
next heading marker, or the whole remaining text when no further marker
exists. -/
def contentFirst (cs : List Char) : List Char :=
  match findSplit cs with
  | none => cs
  | some (pre, _, _) => pre

/-- Fuel-indexed scan of all (heading capture, following content block)
pairs of a text, in scan order. -/
def headPairsF : Nat → List Char → List (List Char × List Char)
  | 0, _ => []
  | fuel + 1, cs =>
    match findSplit cs with
    | none => []
    | some (_, cap, rest) => (cap, contentFirst rest) :: headPairsF fuel rest

/-- All (heading capture, following content block) pairs of a text, in the
order the heading markers appear. -/
def headPairs (cs : List Char) : List (List Char × List Char) :=
  headPairsF (cs.length + 1) cs

theorem headPairsF_fuel : ∀ (f1 f2 : Nat) (cs : List Char),
    cs.length < f1 → cs.length < f2 → headPairsF f1 cs = headPairsF f2 cs := by
  intro f1
  induction f1 with
  | zero => intro f2 cs h1; omega
  | succ f1 ih =>
    intro f2 cs h1 h2
    match f2 with
    | 0 => omega
    | f2 + 1 =>
      simp only [headPairsF]
      split
      · rfl
      case h_2 pre cap rest hf =>
        have hlt := findSplit_length hf
        rw [ih f2 rest (by omega) (by omega)]

theorem headPairs_none {cs : List Char} (h : findSplit cs = none) :
    headPairs cs = [] := by
  simp [headPairs, headPairsF, h]

theorem headPairsF_succ_some {fuel : Nat} {cs pre cap rest : List Char}
    (h : findSplit cs = some (pre, cap, rest)) :
    headPairsF (fuel + 1) cs = (cap, contentFirst rest) :: headPairsF fuel rest := by
  simp [headPairsF, h]

theorem headPairs_some {cs pre cap rest : List Char}
    (h : findSplit cs = some (pre, cap, rest)) :
    headPairs cs = (cap, contentFirst rest) :: headPairs rest := by
  have hlt := findSplit_length h
  unfold headPairs
  rw [headPairsF_succ_some h]
  rw [headPairsF_fuel cs.length (rest.length + 1) rest (by omega) (by omega)]

end StyleScope

namespace StyleScope

theorem filterBoolean_cons_ne {a : List Char} {l : List (List Char)} (ha : a ≠ []) :
    filterBoolean (a :: l) = a :: filterBoolean l := by
  simp [filterBoolean, List.filter_cons, ha]

theorem filterBoolean_cons_nil {l : List (List Char)} :
    filterBoolean ([] :: l) = filterBoolean l := by
  simp [filterBoolean, List.filter_cons]

theorem formatAnalysisTextL_none {cs : List Char} (h : findSplit cs = none) :
    formatAnalysisTextL cs = [] := by
  unfold formatAnalysisTextL
  rw [splitAll_none h]
  cases cs with
  | nil => rfl
  | cons c cs' =>
    rw [show filterBoolean [c :: cs'] = [c :: cs'] from filterBoolean_cons_ne (by simp)]
    simp [pairUp, pairStep]

theorem pairUp_scan : ∀ (n : Nat) (cs : List Char), cs.length ≤ n →
    ∀ (cap : List Char), cap ≠ [] →
    contentFirst cs ≠ [] → (∀ p ∈ headPairs cs, p.2 ≠ ([] : List Char)) →
    pairUp (cap :: filterBoolean (splitAll cs)) =
      { heading := stripLeadNum cap, content := trimJS (contentFirst cs) } ::
        (headPairs cs).map
          (fun p => { heading := stripLeadNum p.1, content := trimJS p.2 : Section }) := by
  intro n
  induction n with
  | zero =>
    intro cs hlen cap hcap hcf hall
    have hnil : cs = [] := List.length_eq_zero.mp (Nat.le_zero.mp hlen)
    subst hnil
    simp [contentFirst, findSplit] at hcf
  | succ n ih =>
    intro cs hlen cap hcap hcf hall
    cases hf : findSplit cs with
    | none =>
      have hcf' : contentFirst cs = cs := by simp [contentFirst, hf]
      have hcs : cs ≠ [] := by rw [hcf'] at hcf; exact hcf
      rw [splitAll_none hf, filterBoolean_cons_ne hcs, headPairs_none hf]
      show pairStep cap cs ++ pairUp [] = _
      simp [pairUp, pairStep, hcap, hcs, hcf']
    | some val =>
      obtain ⟨pre, cap2, rest⟩ := val
      have hcf' : contentFirst cs = pre := by simp [contentFirst, hf]
      have hpre : pre ≠ [] := by rw [hcf'] at hcf; exact hcf
      have hcap2 : cap2 ≠ [] := findSplit_cap_ne hf
      have hhp := headPairs_some hf
      have hlt : rest.length ≤ n := by
        have := findSplit_length hf
        omega
      have h1 : contentFirst rest ≠ [] := by
        refine hall (cap2, contentFirst rest) ?_
        rw [hhp]
        exact List.mem_cons_self _ _
      have h2 : ∀ p ∈ headPairs rest, p.2 ≠ ([] : List Char) := by
        intro p hp
        refine hall p ?_
        rw [hhp]
        exact List.mem_cons_of_mem _ hp
      rw [splitAll_some hf, filterBoolean_cons_ne hpre, filterBoolean_cons_ne hcap2]
      show pairStep cap pre ++ pairUp (cap2 :: filterBoolean (splitAll rest)) = _
      rw [ih rest hlt cap2 hcap2 h1 h2, hhp, hcf']
      simp [pairStep, hcap, hpre]

/-- C1: amended form.  For raw text where the heading-marker scan finds its
markers with no pre-text before the first one and a non-empty content block
after each one, formatAnalysisText returns exactly one section per marker,
in scan order; each heading is the captured label with the leading numeral,
period and whitespace removed — the trailing colon is retained — and each
content is the trimmed block. -/
theorem C1_sections_amended : ∀ (s : String),
    preText s.data = [] →
    (∀ p ∈ headPairs s.data, p.2 ≠ ([] : List Char)) →
    formatAnalysisText s =
      (headPairs s.data).map
        (fun p => { heading := stripLeadNum p.1, content := trimJS p.2 : Section }) ∧
    (formatAnalysisText s).length = (headPairs s.data).length := by
  intro s hpre hall
  have hmain : formatAnalysisText s =
      (headPairs s.data).map
        (fun p => { heading := stripLeadNum p.1, content := trimJS p.2 : Section }) := by
    cases hf : findSplit s.data with
    | none =>
      rw [headPairs_none hf]
      exact formatAnalysisTextL_none hf
    | some val =>
      obtain ⟨pre, cap, rest⟩ := val
      have hpre' : pre = [] := by
        simpa [preText, hf] using hpre
      subst hpre'
      have hhp := headPairs_some hf
      have h1 : contentFirst rest ≠ [] := by
        refine hall (cap, contentFirst rest) ?_
        rw [hhp]
        exact List.mem_cons_self _ _
      have h2 : ∀ p ∈ headPairs rest, p.2 ≠ ([] : List Char) := by
        intro p hp
        refine hall p ?_
        rw [hhp]
        exact List.mem_cons_of_mem _ hp
      show formatAnalysisTextL s.data = _
      unfold formatAnalysisTextL
      rw [splitAll_some hf, filterBoolean_cons_nil,
        filterBoolean_cons_ne (findSplit_cap_ne hf)]
      rw [pairUp_scan rest.length rest le_rfl cap (findSplit_cap_ne hf) h1 h2]
      rw [hhp]
      simp
  exact ⟨hmain, by rw [hmain]; simp⟩

/-- C1: witness instance of the amended theorem at a concrete two-heading
response text. -/
theorem C1_witness :
    formatAnalysisText "**1. Design Style:** Modern\n**2. Lighting:** Bright" =
      (headPairs "**1. Design Style:** Modern\n**2. Lighting:** Bright".data).map
        (fun p => { heading := stripLeadNum p.1, content := trimJS p.2 : Section }) ∧
    (formatAnalysisText "**1. Design Style:** Modern\n**2. Lighting:** Bright").length =
      (headPairs "**1. Design Style:** Modern\n**2. Lighting:** Bright".data).length :=
  C1_sections_amended "**1. Design Style:** Modern\n**2. Lighting:** Bright"
    (by decide) (by decide)

/-- C1: counterexample to the claim as stated.  The text holds exactly one
well-formed heading marker with label span Design Style, yet the returned
heading keeps the trailing colon, so it differs from the label with
numeral, period and colon removed. -/
theorem C1_counterexample :
    headPairs "**1. Design Style:** Modern".data =
      [("1. Design Style:".data, " Modern".data)] ∧
    (formatAnalysisText "**1. Design Style:** Modern").map (fun sec => sec.heading) =
      ["Design Style:".data] ∧
    ["Design Style:".data] ≠ ["Design Style".data] := by decide

end StyleScope

namespace StyleScope

/-- C2: amended form.  The scenario-A text parses to exactly two sections,
but the headings keep their trailing colon and the sub-point text carries
the substituted bullet glyph: heading Design Style with colon, body plain
Modern then the bulleted Clean lines; heading Lighting with colon, body
plain Bright. -/
theorem C2_scenarioA_amended :
    formatAnalysisText "**1. Design Style:** Modern\n* Clean lines\n**2. Lighting:** Bright" =
      [{ heading := "Design Style:".data, content := "Modern\n* Clean lines".data },
       { heading := "Lighting:".data, content := "Bright".data }] ∧
    (formatAnalysisText "**1. Design Style:** Modern\n* Clean lines\n**2. Lighting:** Bright").map
        (fun sec => renderFormattedContentL sec.content) =
      [[Line.plain "Modern".data, Line.subpoint "• Clean lines".data],
       [Line.plain "Bright".data]] := by decide

/-- C2: counterexample to the claim as stated.  On the scenario-A text the
parsed headings are Design Style and Lighting with trailing colons, not the
colon-free labels the claim demands. -/
theorem C2_counterexample :
    (formatAnalysisText "**1. Design Style:** Modern\n* Clean lines\n**2. Lighting:** Bright").map
        (fun sec => sec.heading) ≠
      ["Design Style".data, "Lighting".data] := by decide

/-- C3: evaluation of the parser at the failing input.  Non-empty pre-text
is not discarded: the filter removes only empty segments, so the pre-text
becomes the first section heading, the first captured label becomes its
content, and the real content block is dropped by the odd pairing. -/
theorem C3_pretext_eval :
    formatAnalysisText "Intro\n**1. Design Style:** Modern" =
      [{ heading := "Intro\n".data, content := "1. Design Style:".data }] ∧
    "Intro\n".data ≠ "Design Style:".data := by decide

/-- C5: amended form.  A heading marker followed by empty content yields no
section at all: the loop guard keeps a pair only when the content string is
truthy.  When the trailing content is non-empty whitespace, a section is
produced whose stored content trims to the empty string and whose body is
the empty sequence of lines. -/
theorem C5_empty_content_amended :
    (∀ (s : String) (cap : List Char),
      findSplit s.data = some ([], cap, []) → formatAnalysisText s = []) ∧
    (∀ (s : String) (cap ws : List Char),
      findSplit s.data = some ([], cap, ws) → findSplit ws = none →
      ws ≠ [] → trimJS ws = [] →
      formatAnalysisText s = [{ heading := stripLeadNum cap, content := [] }] ∧
      renderFormattedContentL [] = []) := by
  constructor
  · intro s cap hf
    show formatAnalysisTextL s.data = []
    unfold formatAnalysisTextL
    rw [splitAll_some hf, splitAll_none (show findSplit [] = none from rfl)]
    rw [filterBoolean_cons_nil, filterBoolean_cons_ne (findSplit_cap_ne hf)]
    rw [show filterBoolean [([] : List Char)] = [] from rfl]
    simp [pairUp, pairStep]
  · intro s cap ws hf hnone hne htrim
    constructor
    · show formatAnalysisTextL s.data = _
      unfold formatAnalysisTextL
      rw [splitAll_some hf, splitAll_none hnone]
      rw [filterBoolean_cons_nil, filterBoolean_cons_ne (findSplit_cap_ne hf),
        filterBoolean_cons_ne hne]
      show pairStep cap ws ++ pairUp (filterBoolean []) = _
      rw [show filterBoolean [] = [] from rfl]
      simp [pairUp, pairStep, findSplit_cap_ne hf, hne, htrim]
    · rfl

/-- C5: witness instances of the amended theorem: a bare heading yields no
section, a heading followed only by a space yields a section with empty
content and empty body. -/
theorem C5_witness :
    formatAnalysisText "**2. Palette:**" = [] ∧
    formatAnalysisText "**2. Palette:** " =
      [{ heading := "Palette:".data, content := [] }] :=
  ⟨C5_empty_content_amended.1 "**2. Palette:**" "2. Palette:".data (by decide),
   (C5_empty_content_amended.2 "**2. Palette:** " "2. Palette:".data [' ']
      (by decide) (by decide) (by decide) (by decide)).1⟩

/-- C5: counterexample to the claim as stated.  The text holds exactly one
well-formed heading marker with no trailing content, yet the parser returns
no section for it instead of a section with an empty body. -/
theorem C5_counterexample :
    formatAnalysisText "**1. Style:**" = [] ∧
    (headPairs "**1. Style:**".data).length = 1 := by decide

/-- C6: the parser on the empty string, and on any text in which the
heading-marker scan finds no match, returns the empty section sequence; the
embedding is total, so no exception is possible. -/
theorem C6_no_headings :
    formatAnalysisText "" = [] ∧
    ∀ (s : String), findSplit s.data = none → formatAnalysisText s = [] := by
  constructor
  · rfl
  · intro s h
    exact formatAnalysisTextL_none h

/-- C6: witness instance at a concrete markerless text. -/
theorem C6_witness :
    findSplit "no markers here".data = none ∧
    formatAnalysisText "no markers here" = [] :=
  ⟨by decide, C6_no_headings.2 "no markers here" (by decide)⟩

theorem pairUp_odd : ∀ (l : List (List Char)), l.length % 2 = 1 →
    pairUp l = pairUp l.dropLast
  | [] => by intro h; simp at h
  | [h] => by
    intro _
    simp [pairUp, pairStep, List.dropLast]
  | h :: c :: rest => by
    intro hodd
    have hrest : rest.length % 2 = 1 := by
      simp only [List.length_cons] at hodd
      omega
    have ih := pairUp_odd rest hrest
    cases rest with
    | nil => simp at hrest
    | cons r rs =>
      show pairStep h c ++ pairUp (r :: rs) = pairUp ((h :: c :: r :: rs).dropLast)
      rw [show (h :: c :: r :: rs).dropLast = h :: c :: (r :: rs).dropLast from rfl]
      show pairStep h c ++ pairUp (r :: rs) = pairStep h c ++ pairUp ((r :: rs).dropLast)
      rw [ih]

/-- C10: totality and defaulting of the parser pipeline.  A lone trailing
segment contributes no section (the missing content defaults to the empty
string, whose truthiness check fails); consequently, when the filtered
segment list has odd length the parse equals the parse of the list without
its last segment; and the per-line formatter returns exactly one line per
kept input line.  All embedded functions are total, so every string input
yields a result with no exception and no out-of-range access. -/
theorem C10_totality :
    (∀ (h : List Char), pairUp [h] = []) ∧
    (∀ (s : String), (filterBoolean (splitAll s.data)).length % 2 = 1 →
      formatAnalysisText s = pairUp ((filterBoolean (splitAll s.data)).dropLast)) ∧
    (∀ (s : String),
      (renderFormattedContent s).length = (nonBlankLines s.data).length) := by
  refine ⟨?_, ?_, ?_⟩
  · intro h
    simp [pairUp, pairStep]
  · intro s hodd
    exact pairUp_odd _ hodd
  · intro s
    simp [renderFormattedContent, renderFormattedContentL]

/-- C10: witness instance at a markerless text, whose split yields a single
(odd-count) segment list. -/
theorem C10_witness :
    (filterBoolean (splitAll "just text".data)).length % 2 = 1 ∧
    formatAnalysisText "just text" =
      pairUp ((filterBoolean (splitAll "just text".data)).dropLast) :=
  ⟨by decide, C10_totality.2.1 "just text" (by decide)⟩

end StyleScope

namespace StyleScope

theorem dropWhile_append_single {p : Char → Bool} {c : Char} (hc : p c = false) :
    ∀ (xs : List Char), (xs ++ [c]).dropWhile p = xs.dropWhile p ++ [c]
  | [] => by simp [List.dropWhile, hc]
  | a :: xs => by
    simp only [List.cons_append, List.dropWhile]
    split
    · exact dropWhile_append_single hc xs
    · rfl

theorem trimJS_star_head (t : List Char) :
    (trimJS ('*' :: t)).head? = some '*' := by
  unfold trimJS
  rw [show ('*' :: t).dropWhile isSpaceCh = '*' :: t by
    simp [List.dropWhile, isSpaceCh]]
  rw [List.reverse_cons]
  rw [dropWhile_append_single (show isSpaceCh '*' = false by decide)]
  rw [List.reverse_append]
  simp

/-- Specification-side per-line formatter, written from the amended claim
wording for comparison with renderLine: a line whose first non-whitespace
character is an asterisk is a sub-point, its text rewritten to a bullet
glyph plus the marker remainder only when the asterisk is the very first
character of the line; every other line is plain with its original,
untrimmed text. -/
def bulletTextSpec (l : List Char) : List Char :=
  if l.head? = some '*' then '•' :: ' ' :: l.tail.dropWhile isSpaceCh else l

/-- Specification-side classifier paired with bulletTextSpec; see the doc
comment above. -/
def lineFormatSpec (l : List Char) : Line :=
  if (trimJS l).head? = some '*' then Line.subpoint (bulletTextSpec l)
  else Line.plain l

theorem replaceLeadStar_eq (l : List Char) : replaceLeadStar l = bulletTextSpec l := by
  unfold replaceLeadStar bulletTextSpec
  split
  case h_1 rest => simp
  case h_2 hne =>
    split
    case isTrue hh =>
      exfalso
      cases l with
      | nil => simp at hh
      | cons a t =>
        simp only [List.head?_cons, Option.some.injEq] at hh
        exact hne t (by rw [hh])
    case isFalse => rfl

theorem renderLine_eq_spec (l : List Char) : renderLine l = lineFormatSpec l := by
  unfold renderLine lineFormatSpec
  rw [replaceLeadStar_eq]

/-- C4: amended form.  The per-line formatter splits on line breaks, drops
blank lines, classifies a line as a sub-point exactly when its trimmed form
starts with an asterisk, and keeps every other line as plain, untrimmed
text; the bullet-glyph substitution applies only when the asterisk is the
first character of the raw line.  In particular, when every kept line
begins with an asterisk at its first character, every output is a
sub-point with the glyph substituted. -/
theorem C4_lines_amended :
    (∀ (s : String),
      renderFormattedContent s = (nonBlankLines s.data).map lineFormatSpec) ∧
    (∀ (s : String), (∀ l ∈ nonBlankLines s.data, l.head? = some '*') →
      renderFormattedContent s =
        (nonBlankLines s.data).map
          (fun l => Line.subpoint ('•' :: ' ' :: l.tail.dropWhile isSpaceCh))) := by
  constructor
  · intro s
    exact List.map_congr_left (fun l _ => renderLine_eq_spec l)
  · intro s hall
    show (nonBlankLines s.data).map renderLine = _
    apply List.map_congr_left
    intro l hl
    have hh := hall l hl
    obtain ⟨t, rfl⟩ : ∃ t, l = '*' :: t := by
      cases l with
      | nil => simp at hh
      | cons a t =>
        simp only [List.head?_cons, Option.some.injEq] at hh
        exact ⟨t, by rw [hh]⟩
    unfold renderLine
    rw [if_pos (trimJS_star_head t)]
    simp [replaceLeadStar]

/-- C4: witness instance of the all-bullets clause at a concrete two-line
block. -/
theorem C4_witness :
    renderFormattedContent "* a\n* b" =
      [Line.subpoint "• a".data, Line.subpoint "• b".data] :=
  (C4_lines_amended.2 "* a\n* b" (by decide)).trans (by decide)

/-- C4: counterexample to the claim as stated.  An indented bullet line is
classified as a sub-point but its marker is not replaced by the glyph (the
replacement regex is anchored to the line start), and a plain line keeps
its leading whitespace instead of being trimmed. -/
theorem C4_counterexample :
    renderFormattedContent "  * x" = [Line.subpoint "  * x".data] ∧
    Line.subpoint "  * x".data ≠ Line.subpoint "• x".data ∧
    renderFormattedContent " y" = [Line.plain " y".data] ∧
    Line.plain " y".data ≠ Line.plain "y".data := by decide

end StyleScope

namespace StyleScope

/-- Result of the camera adapter: display reference plus transmissible
payload, the shape takePictureAsync resolves with. -/
structure Photo where
  uri : String
  base64 : String
deriving DecidableEq

/-- One asset of the gallery-picker result. -/
structure PickAsset where
  uri : String
  base64 : String
deriving DecidableEq

/-- Result shape of launchImageLibraryAsync: a cancellation flag and the
selected assets. -/
structure PickResult where
  canceled : Bool
  assets : List PickAsset
deriving DecidableEq

/-- Observable side effects of the screen handlers: user-facing alerts, the
single outbound call to the generative-model client, and the console error
log. -/
inductive Effect where
  | alertMsg (title msg : String)
  | clientCall
  | consoleErr
deriving DecidableEq

instance {ε α : Type} [DecidableEq ε] [DecidableEq α] : DecidableEq (Except ε α) :=
  fun x y =>
    match x, y with
    | Except.ok a, Except.ok b =>
      if h : a = b then Decidable.isTrue (by rw [h]) else Decidable.isFalse (by simp [h])
    | Except.error a, Except.error b =>
      if h : a = b then Decidable.isTrue (by rw [h]) else Decidable.isFalse (by simp [h])
    | Except.ok _, Except.error _ => Decidable.isFalse (by simp)
    | Except.error _, Except.ok _ => Decidable.isFalse (by simp)

/-- External world of one handler run: the configured credential and the
outcomes the awaited adapter and client calls would produce.  Except
values model promise rejection. -/
structure Env where
  apiKey : Option String
  cameraRefAttached : Bool
  cameraResult : Except Unit (Option Photo)
  pickResult : Except Unit PickResult
  remote : Except Unit String
deriving DecidableEq

/-- JavaScript falsiness of the credential read from the environment: the
variable is missing or holds the empty string. -/
def envKeyFalsy (e : Env) : Bool := e.apiKey = none || e.apiKey = some ""

/-- Shared event alphabet of the screen models: the button taps the two
screens expose, plus the completion of an in-flight client call. -/
inductive UiEvent where
  | captureTap
  | pickTap
  | resetTap
  | closeModalTap
  | remoteDone
deriving DecidableEq

namespace Main

/-- React state of the modal-based screen: the four useState hooks other
than camera facing and permission. -/
structure MState where
  capturedImage : Option String
  analysis : String
  loading : Bool
  showModal : Bool
deriving DecidableEq

/-- Configuration of the screen between event steps: the hook state plus
the number of generateContent promises dispatched and not yet settled. -/
structure Conf where
  ui : MState
  pending : Nat
deriving DecidableEq

/-- Initial hook values of the screen. -/
def initConf : Conf :=
  { ui := { capturedImage := none, analysis := "", loading := false, showModal := false },
    pending := 0 }

/-- First phase of analyzeRoom, up to the dispatch of the client call: the
missing-credential guard alerts and returns before any other statement;
otherwise loading is set and the request goes out. -/
def analyzeRoomStart (e : Env) (c : Conf) : Conf × List Effect :=
  if envKeyFalsy e then
    (c, [Effect.alertMsg "Error" "Please add your Gemini API key to environment variables"])
  else
    ({ c with ui := { c.ui with loading := true }, pending := c.pending + 1 },
     [Effect.clientCall])

/-- Second phase of analyzeRoom, run when a dispatched client call settles:
on success the response text is stored and the modal shown; on rejection
the error is logged and alerted; either way the finally clause clears
loading. -/
def resolveRemote (e : Env) (c : Conf) : Conf × List Effect :=
  if c.pending = 0 then (c, [])
  else
    match e.remote with
    | Except.ok text =>
      ({ c with
          ui := { c.ui with analysis := text, showModal := true, loading := false },
          pending := c.pending - 1 }, [])
    | Except.error _ =>
      ({ c with ui := { c.ui with loading := false }, pending := c.pending - 1 },
       [Effect.consoleErr,
        Effect.alertMsg "Error" "Failed to analyze room. Please try again."])

/-- Model of the takePicture handler: guarded on the camera ref, alerting
on a rejected capture, and otherwise storing the image and starting
analyzeRoom (which the handler does not await). -/
def takePicture (e : Env) (c : Conf) : Conf × List Effect :=
  if e.cameraRefAttached then
    match e.cameraResult with
    | Except.error _ => (c, [Effect.alertMsg "Error" "Failed to take picture"])
    | Except.ok none => (c, [])
    | Except.ok (some photo) =>
      analyzeRoomStart e { c with ui := { c.ui with capturedImage := some photo.uri } }
  else (c, [])

/-- Model of the pickImage handler: alerting on a rejected picker call, and
proceeding only when the result is not canceled and has a first asset. -/
def pickImage (e : Env) (c : Conf) : Conf × List Effect :=
  match e.pickResult with
  | Except.error _ => (c, [Effect.alertMsg "Error" "Failed to pick image"])
  | Except.ok r =>
    match r.canceled, r.assets with
    | false, asset :: _ =>
      analyzeRoomStart e { c with ui := { c.ui with capturedImage := some asset.uri } }
    | _, _ => (c, [])

/-- Model of resetAnalysis: image and analysis cleared, modal hidden; the
loading flag is not touched. -/
def resetAnalysis (st : MState) : MState :=
  { st with capturedImage := none, analysis := "", showModal := false }

/-- Which view the component returns for a given hook state. -/
inductive Screen where
  | cameraScreen
  | loadingScreen
  | modalScreen
deriving DecidableEq

/-- Render dispatch of the component: with an image held and the modal
hidden it returns the loading view (whose only button is the reset); the
main return shows the camera view, overlaid by the blocking modal when
showModal holds. -/
def renderOf (st : MState) : Screen :=
  if st.capturedImage ≠ none ∧ st.showModal = false then Screen.loadingScreen
  else if st.showModal then Screen.modalScreen
  else Screen.cameraScreen

/-- Event step of the screen: a tap runs its handler only when the
currently rendered view contains that button; completion of the client
call arrives regardless of the rendered view. -/
def step (e : Env) (c : Conf) : UiEvent → Conf × List Effect
  | UiEvent.captureTap =>
    if renderOf c.ui = Screen.cameraScreen then takePicture e c else (c, [])
  | UiEvent.pickTap =>
    if renderOf c.ui = Screen.cameraScreen then pickImage e c else (c, [])
  | UiEvent.resetTap =>
    if renderOf c.ui = Screen.loadingScreen ∨ renderOf c.ui = Screen.modalScreen then
      ({ c with ui := resetAnalysis c.ui }, [])
    else (c, [])
  | UiEvent.closeModalTap =>
    if renderOf c.ui = Screen.modalScreen then
      ({ c with ui := { c.ui with showModal := false } }, [])
    else (c, [])
  | UiEvent.remoteDone => resolveRemote e c

end Main

namespace Tabs

/-- React state of the tab screen of camera.tsx, which has no modal. -/
structure TState where
  capturedImage : Option String
  analysis : String
  loading : Bool
deriving DecidableEq

/-- Configuration of the tab screen between event steps. -/
structure Conf where
  ui : TState
  pending : Nat
deriving DecidableEq

/-- Initial hook values of the tab screen. -/
def initConf : Conf :=
  { ui := { capturedImage := none, analysis := "", loading := false }, pending := 0 }

/-- First phase of analyzeRoom of camera.tsx: identical guard and dispatch,
no modal flag. -/
def analyzeRoomStart (e : Env) (c : Conf) : Conf × List Effect :=
  if envKeyFalsy e then
    (c, [Effect.alertMsg "Error" "Please add your Gemini API key to environment variables"])
  else
    ({ c with ui := { c.ui with loading := true }, pending := c.pending + 1 },
     [Effect.clientCall])

/-- Second phase of analyzeRoom of camera.tsx. -/
def resolveRemote (e : Env) (c : Conf) : Conf × List Effect :=
  if c.pending = 0 then (c, [])
  else
    match e.remote with
    | Except.ok text =>
      ({ c with
          ui := { c.ui with analysis := text, loading := false },
          pending := c.pending - 1 }, [])
    | Except.error _ =>
      ({ c with ui := { c.ui with loading := false }, pending := c.pending - 1 },
       [Effect.consoleErr,
        Effect.alertMsg "Error" "Failed to analyze room. Please try again."])

/-- Model of the takePicture handler of camera.tsx. -/
def takePicture (e : Env) (c : Conf) : Conf × List Effect :=
  if e.cameraRefAttached then
    match e.cameraResult with
    | Except.error _ => (c, [Effect.alertMsg "Error" "Failed to take picture"])
    | Except.ok none => (c, [])
    | Except.ok (some photo) =>
      analyzeRoomStart e { c with ui := { c.ui with capturedImage := some photo.uri } }
  else (c, [])

/-- Model of the pickImage handler of camera.tsx. -/
def pickImage (e : Env) (c : Conf) : Conf × List Effect :=
  match e.pickResult with
  | Except.error _ => (c, [Effect.alertMsg "Error" "Failed to pick image"])
  | Except.ok r =>
    match r.canceled, r.assets with
    | false, asset :: _ =>
      analyzeRoomStart e { c with ui := { c.ui with capturedImage := some asset.uri } }
    | _, _ => (c, [])

/-- Model of resetAnalysis of camera.tsx: image and analysis cleared. -/
def resetAnalysis (st : TState) : TState :=
  { st with capturedImage := none, analysis := "" }

/-- Which view the tab component returns. -/
inductive Screen where
  | cameraScreen
  | analysisScreen
deriving DecidableEq

/-- Render dispatch of camera.tsx: any held image switches to the
analysis/loading view, whose only button is the reset. -/
def renderOf (st : TState) : Screen :=
  if st.capturedImage ≠ none then Screen.analysisScreen else Screen.cameraScreen

/-- Event step of the tab screen; a modal-close tap has no target on this
screen and does nothing. -/
def step (e : Env) (c : Conf) : UiEvent → Conf × List Effect
  | UiEvent.captureTap =>
    if renderOf c.ui = Screen.cameraScreen then takePicture e c else (c, [])
  | UiEvent.pickTap =>
    if renderOf c.ui = Screen.cameraScreen then pickImage e c else (c, [])
  | UiEvent.resetTap =>
    if renderOf c.ui = Screen.analysisScreen then
      ({ c with ui := resetAnalysis c.ui }, [])
    else (c, [])
  | UiEvent.closeModalTap => (c, [])
  | UiEvent.remoteDone => resolveRemote e c

end Tabs

end StyleScope

namespace StyleScope

/-- C7: with no usable credential configured (missing or empty), the
credential guard of analyzeRoom in both screens alerts the configuration
error and returns at once: the state is returned unmodified, the effect
list holds only the alert — in particular no client call — and since
nothing was dispatched, nothing is pending. -/
theorem C7_no_credential : ∀ (e : Env) (c : Main.Conf) (t : Tabs.Conf),
    envKeyFalsy e = true →
    Main.analyzeRoomStart e c =
      (c, [Effect.alertMsg "Error"
            "Please add your Gemini API key to environment variables"]) ∧
    Tabs.analyzeRoomStart e t =
      (t, [Effect.alertMsg "Error"
            "Please add your Gemini API key to environment variables"]) := by
  intro e c t hk
  constructor
  · simp [Main.analyzeRoomStart, hk]
  · simp [Tabs.analyzeRoomStart, hk]

/-- C7: witness instance with a missing key and the initial screen
states. -/
theorem C7_witness :
    envKeyFalsy
        { apiKey := none, cameraRefAttached := true,
          cameraResult := Except.ok none,
          pickResult := Except.ok { canceled := true, assets := [] },
          remote := Except.error () } = true ∧
    Main.analyzeRoomStart
        { apiKey := none, cameraRefAttached := true,
          cameraResult := Except.ok none,
          pickResult := Except.ok { canceled := true, assets := [] },
          remote := Except.error () } Main.initConf =
      (Main.initConf,
       [Effect.alertMsg "Error"
          "Please add your Gemini API key to environment variables"]) ∧
    Tabs.analyzeRoomStart
        { apiKey := none, cameraRefAttached := true,
          cameraResult := Except.ok none,
          pickResult := Except.ok { canceled := true, assets := [] },
          remote := Except.error () } Tabs.initConf =
      (Tabs.initConf,
       [Effect.alertMsg "Error"
          "Please add your Gemini API key to environment variables"]) :=
  ⟨by decide,
   (C7_no_credential _ Main.initConf Tabs.initConf (by decide)).1,
   (C7_no_credential _ Main.initConf Tabs.initConf (by decide)).2⟩

/-- Environment used for the re-entrancy analysis: a configured key, a
working camera, and a picker that would cancel. -/
def envFlight : Env :=
  { apiKey := some "key", cameraRefAttached := true,
    cameraResult := Except.ok (some { uri := "file-a", base64 := "imgdata" }),
    pickResult := Except.ok { canceled := true, assets := [] },
    remote := Except.ok "analysis response" }

/-- Configuration reached from the initial state by one successful capture
dispatch. -/
def confAfterCapture : Main.Conf :=
  (Main.step envFlight Main.initConf UiEvent.captureTap).1

/-- Configuration reached from confAfterCapture by tapping the reset button
of the loading view while the request is still in flight. -/
def confAfterReset : Main.Conf :=
  (Main.step envFlight confAfterCapture UiEvent.resetTap).1

/-- C8: counterexample to the claim as stated.  After a capture dispatch
and a reset tap (the reset button stays enabled on the loading view), one
client call is still in flight, yet a second capture trigger is not a
no-op: it dispatches a second client call, so two requests are in flight
for one session. -/
theorem C8_counterexample :
    confAfterReset.pending = 1 ∧
    confAfterReset.ui.loading = true ∧
    (Main.step envFlight confAfterReset UiEvent.captureTap).2 = [Effect.clientCall] ∧
    (Main.step envFlight confAfterReset UiEvent.captureTap).1.pending = 2 ∧
    (Main.step envFlight confAfterReset UiEvent.captureTap).1 ≠ confAfterReset := by decide

/-- C8: amended form.  While the loading view is shown — the captured
image still held and the modal hidden — a second capture or pick trigger
is a no-op for any environment: those buttons are not rendered, so the
state is unchanged and the client is not invoked.  The protection is lost
once reset clears the image mid-flight, as the counterexample shows. -/
theorem C8_no_reentry_amended : ∀ (e : Env) (c : Main.Conf),
    c.ui.loading = true → c.ui.capturedImage ≠ none → c.ui.showModal = false →
    Main.step e c UiEvent.captureTap = (c, []) ∧
    Main.step e c UiEvent.pickTap = (c, []) := by
  intro e c hl hi hm
  have hr : Main.renderOf c.ui = Main.Screen.loadingScreen := by
    simp [Main.renderOf, hi, hm]
  constructor
  · simp [Main.step, hr]
  · simp [Main.step, hr]

/-- C8: witness instance of the amended theorem at a concrete analyzing
configuration. -/
theorem C8_witness :
    Main.step envFlight
        { ui := { capturedImage := some "file-a", analysis := "",
                  loading := true, showModal := false }, pending := 1 }
        UiEvent.captureTap =
      ({ ui := { capturedImage := some "file-a", analysis := "",
                 loading := true, showModal := false }, pending := 1 }, []) ∧
    Main.step envFlight
        { ui := { capturedImage := some "file-a", analysis := "",
                  loading := true, showModal := false }, pending := 1 }
        UiEvent.pickTap =
      ({ ui := { capturedImage := some "file-a", analysis := "",
                 loading := true, showModal := false }, pending := 1 }, []) :=
  ⟨(C8_no_reentry_amended envFlight _ (by decide) (by decide) (by decide)).1,
   (C8_no_reentry_amended envFlight _ (by decide) (by decide) (by decide)).2⟩

/-- C9: a canceled gallery pick from the idle state of either screen
changes nothing: the handler reaches the canceled branch, stores no image,
starts no analysis, and raises no alert — the returned configuration is
the idle one and the effect list is empty. -/
theorem C9_cancel_noop : ∀ (e : Env) (c : Main.Conf) (t : Tabs.Conf) (r : PickResult),
    e.pickResult = Except.ok r → r.canceled = true →
    c.ui.capturedImage = none → c.ui.showModal = false →
    c.ui.loading = false → c.pending = 0 →
    t.ui.capturedImage = none → t.ui.loading = false → t.pending = 0 →
    Main.step e c UiEvent.pickTap = (c, []) ∧
    Tabs.step e t UiEvent.pickTap = (t, []) := by
  intro e c t r hp hcanc hci hcm hcl hcp hti htl htp
  constructor
  · have hr : Main.renderOf c.ui = Main.Screen.cameraScreen := by
      simp [Main.renderOf, hci, hcm]
    simp [Main.step, hr, Main.pickImage, hp, hcanc]
  · have hr : Tabs.renderOf t.ui = Tabs.Screen.cameraScreen := by
      simp [Tabs.renderOf, hti]
    simp [Tabs.step, hr, Tabs.pickImage, hp, hcanc]

/-- C9: witness instance with a canceling picker and the initial screen
states. -/
theorem C9_witness :
    Main.step envFlight Main.initConf UiEvent.pickTap = (Main.initConf, []) ∧
    Tabs.step envFlight Tabs.initConf UiEvent.pickTap = (Tabs.initConf, []) :=
  C9_cancel_noop envFlight Main.initConf Tabs.initConf
    { canceled := true, assets := [] }
    (by decide) (by decide) (by decide) (by decide) (by decide) (by decide)
    (by decide) (by decide) (by decide)

end StyleScope
